import Mathlib

/-!
Shallow embedding of `src/HyprloadPlugin.cpp` (hyprload's plugin acquisition,
build and publish core) and proofs about it.

Modelling conventions:
* `toml::table` values become the inductive `Toml` / assoc lists `TomlTable`;
  `node_view::is_string()/is_array()/is_table()` become the `Toml.is*` tests and
  `as_string()->get()` becomes `Toml.asStringGet`, whose result on a non-string
  node is `Res.crash` (the C++ dereferences a null pointer there: undefined
  behavior, distinct from a thrown `std::runtime_error`, which is `Res.thrown`).
* `hyprload::Result<T, std::string>` ok/err outcomes are `Res.ok` / `Res.err`.
* `std::filesystem::path` is a list of components; `p / s` appends the
  components of `s`; `path::filename()` is the last component.
* The ambient process state (filesystem queries, `std::system`, `popen`,
  `getHyprlandHeadersPath`) is an explicit `Env` record of oracles, and each
  effectful operation also returns the list of external `Action`s it performed,
  in order, so install/build control flow is observable in the theorems.
-/

namespace Hyprload

/-- A TOML value, as far as `HyprloadPlugin.cpp` inspects one. -/
inductive Toml where
  | str (s : String)
  | int (n : Int)
  | boolean (b : Bool)
  | arr (xs : List Toml)
  | table (kvs : List (String × Toml))

/-- A TOML table: keys with values, in source order. -/
abbrev TomlTable := List (String × Toml)

/-- `node.is_string()`. -/
def Toml.isStr : Toml → Bool
  | .str _ => true
  | _ => false

/-- `node.is_array()`. -/
def Toml.isArr : Toml → Bool
  | .arr _ => true
  | _ => false

/-- `node.is_table()`. -/
def Toml.isTable : Toml → Bool
  | .table _ => true
  | _ => false

/-- `table.contains(key)` / `table[key]`: the first binding of `key`. -/
def tlookup : TomlTable → String → Option Toml
  | [], _ => none
  | (k, v) :: rest, key => if k == key then some v else tlookup rest key

/-- Outcome of a C++ computation: a `Result::ok` value, a `Result::err`
message, an escaping `std::runtime_error` (`thrown`), or undefined behavior
(`crash`, from dereferencing `as_string()` on a non-string node). -/
inductive Res (α : Type) where
  | ok (a : α)
  | err (msg : String)
  | thrown (msg : String)
  | crash
  deriving DecidableEq

/-- Sequencing of C++ computations: errors, exceptions and crashes propagate. -/
def Res.bind {α β : Type} : Res α → (α → Res β) → Res β
  | .ok a, f => f a
  | .err m, _ => .err m
  | .thrown m, _ => .thrown m
  | .crash, _ => .crash

/-- Map over a successful outcome. -/
def Res.map {α β : Type} (f : α → β) : Res α → Res β
  | .ok a => .ok (f a)
  | .err m => .err m
  | .thrown m => .thrown m
  | .crash => .crash

/-- `res` is a successfully constructed value. -/
def Res.isOk {α : Type} : Res α → Bool
  | .ok _ => true
  | _ => false

/-- `res` is a structural parse error (a thrown `std::runtime_error`). -/
def Res.isParseError {α : Type} : Res α → Bool
  | .thrown _ => true
  | _ => false

/-- `value.as_string()->get()`: the string content, or a null-pointer
dereference (`crash`) when the node is not a string. -/
def Toml.asStringGet : Toml → Res String
  | .str s => .ok s
  | _ => .crash

/-- The `authors` array walk of `PluginManifest::PluginManifest`
(HyprloadPlugin.cpp:112-118): push each string, throw at the first
non-string element. -/
def parseAuthorsList : List Toml → Res (List String)
  | [] => .ok []
  | .str s :: rest => (parseAuthorsList rest).map (fun l => s :: l)
  | _ :: _ => .thrown "Author must be a string"

/-- The `else if (manifest.contains("author"))` fallback
(HyprloadPlugin.cpp:119-121): a scalar `author`, when present, is read as a
string (crashing if it is not one); otherwise the list stays empty. -/
def parseAuthorFallback (t : TomlTable) : Res (List String) :=
  match tlookup t "author" with
  | some v => (Toml.asStringGet v).map (fun s => [s])
  | none => .ok []

/-- The authors resolution of `PluginManifest::PluginManifest`
(HyprloadPlugin.cpp:110-123): an `authors` field that is an array is walked
element by element; any other `authors` value (or none) falls back to the
scalar `author` field. -/
def parseAuthors (t : TomlTable) : Res (List String) :=
  match tlookup t "authors" with
  | some (.arr xs) => parseAuthorsList xs
  | _ => parseAuthorFallback t

/-- The `version` / `description` resolution (HyprloadPlugin.cpp:125-135):
read the field as a string when present (crashing on a non-string value),
else use the default. -/
def parseStringOr (t : TomlTable) (key dflt : String) : Res String :=
  match tlookup t key with
  | some v => Toml.asStringGet v
  | none => .ok dflt

/-- The `build.steps` array walk (HyprloadPlugin.cpp:146-152): push each
string, throw at the first non-string element. -/
def parseSteps : List Toml → Res (List String)
  | [] => .ok []
  | .str s :: rest => (parseSteps rest).map (fun l => s :: l)
  | _ :: _ => .thrown "Build step must be a string"

/-- The `build` table resolution (HyprloadPlugin.cpp:137-158): `build` must
be a table, `build.output` defaults to `<name>.so` when absent or non-string,
`build.steps` must be an array of strings. Returns (output, steps). -/
def parseBuild (name : String) (t : TomlTable) : Res (String × List String) :=
  match tlookup t "build" with
  | some (.table b) =>
    match tlookup b "steps" with
    | some (.arr xs) =>
      (parseSteps xs).map (fun steps =>
        (match tlookup b "output" with
         | some (.str s) => s
         | _ => name ++ ".so", steps))
    | _ => .thrown "Plugin must have build steps"
  | _ => .thrown "Plugin must have a build table"

/-- The fields of a constructed `PluginManifest`. -/
structure PluginManifest where
  name : String
  authors : List String
  version : String
  description : String
  binaryOutputPath : String
  buildSteps : List String
  deriving DecidableEq

/-- `PluginManifest::PluginManifest(name, manifest)` (HyprloadPlugin.cpp:107-159),
with the C++ field evaluation order: authors, version, description, build. -/
def mkPluginManifest (name : String) (t : TomlTable) : Res PluginManifest :=
  Res.bind (parseAuthors t) fun authors =>
  Res.bind (parseStringOr t "version" "0.0.0") fun version =>
  Res.bind (parseStringOr t "description" "No description provided") fun description =>
  Res.bind (parseBuild name t) fun ob =>
  .ok ⟨name, authors, version, description, ob.1, ob.2⟩

/-- The fields of a constructed `HyprloadManifest`. -/
structure HyprloadManifest where
  plugins : List PluginManifest
  deriving DecidableEq

/-- The `for_each` of `HyprloadManifest::HyprloadManifest`
(HyprloadPlugin.cpp:185-193): every table-valued top-level entry becomes a
`PluginManifest` named by its key; other entries are skipped; a constructor
failure escapes. -/
def mkPlugins : TomlTable → Res (List PluginManifest)
  | [] => .ok []
  | (k, .table tbl) :: rest =>
    Res.bind (mkPluginManifest k tbl) fun pm =>
    Res.bind (mkPlugins rest) fun pms => .ok (pm :: pms)
  | _ :: rest => mkPlugins rest

/-- `HyprloadManifest::HyprloadManifest(manifest)`. -/
def mkHyprloadManifest (t : TomlTable) : Res HyprloadManifest :=
  (mkPlugins t).map HyprloadManifest.mk

/-- A filesystem path, as its list of components. -/
abbrev Path := List String

/-- Render a path the way the C++ passes it to a shell command. -/
def pathToStr (p : Path) : String := String.intercalate "/" p

/-- Split a character list at every occurrence of `c`; always non-empty. -/
def splitOnChar : List Char → Char → List (List Char)
  | [], _ => [[]]
  | x :: xs, c =>
    match splitOnChar xs c with
    | [] => [[]]
    | h :: t => if x == c then [] :: h :: t else (x :: h) :: t

/-- The slash-separated components of a string, as a path. -/
def splitPath (s : String) : Path := (splitOnChar s.data '/').map String.mk

/-- `std::filesystem::path::operator/` with a (relative) string on the right:
append the string's slash-separated components. -/
def pathJoin (p : Path) (s : String) : Path := p ++ splitPath s

/-- `std::filesystem::path::filename()`: the last component. -/
def pathFilename (p : Path) : String := (p.getLast?).getD ""

/-- `url.substr(url.find_last_of('/') + 1)`: everything after the last slash
(the whole string when it has no slash). -/
def afterLastSlash (s : String) : String := String.mk ((splitOnChar s.data '/').getLastD s.data)

/-- One list of characters begins with another. -/
def prefixMatches : List Char → List Char → Bool
  | [], _ => true
  | _ :: _, [] => false
  | p :: ps, x :: xs => p == x && prefixMatches ps xs

/-- `pat` occurs contiguously somewhere in the list. -/
def occursIn (pat : List Char) : List Char → Bool
  | [] => prefixMatches pat []
  | x :: xs => prefixMatches pat (x :: xs) || occursIn pat xs

/-- `s.find(pat) != std::string::npos`: `pat` occurs in `s`. -/
def hasSubstr (s pat : String) : Bool := occursIn pat.data s.data

/-- `s.find(pre) == 0`: `s` begins with `pre`. -/
def strStartsWith (s pre : String) : Bool := prefixMatches pre.data s.data

/-- The ambient process state consulted by install/build: filesystem
existence, TOML file parsing (`toml::parse`: a table, or a thrown parse
exception's message), `hyprload::getHyprlandHeadersPath()`, `std::system`
exit codes and `executeCommand` (exit, combined output) results. -/
structure Env where
  fsExists : Path → Bool
  parseToml : Path → Except String TomlTable
  headers : Option Path
  runSystem : String → Int
  runExec : String → Int × String

/-- One external effect performed by install/build, in order of occurrence. -/
inductive Action where
  | system (cmd : String)
  | exec (cmd : String)
  | remove (p : Path)
  | copy (src dst : Path)
  deriving DecidableEq

/-- `getHyprlandManifest(sourcePath)` (HyprloadPlugin.cpp:36-49): missing
`hyprload.toml` and TOML syntax errors are `err`s; a `HyprloadManifest`
constructor failure escapes (it is outside the `try`). -/
def getHyprlandManifest (env : Env) (sourcePath : Path) : Res HyprloadManifest :=
  if env.fsExists (sourcePath ++ ["hyprload.toml"]) = false then
    .err "Source does not have a hyprload.toml manifest"
  else
    match env.parseToml (sourcePath ++ ["hyprload.toml"]) with
    | .error e => .err ("Failed to parse source manifest: " ++ e)
    | .ok t => mkHyprloadManifest t

/-- The linear search of `getPluginManifest` (HyprloadPlugin.cpp:61-66). -/
def findPlugin (name : String) : List PluginManifest → Option PluginManifest
  | [] => none
  | pm :: rest => if pm.name == name then some pm else findPlugin name rest

/-- `getPluginManifest(sourcePath, name)` (HyprloadPlugin.cpp:51-73). -/
def getPluginManifest (env : Env) (sourcePath : Path) (name : String) : Res PluginManifest :=
  Res.bind (getHyprlandManifest env sourcePath) fun hm =>
  match findPlugin name hm.plugins with
  | some pm => .ok pm
  | none => .err ("Plugin does not have a manifest for " ++ name)

/-- The single shell invocation assembled by `buildPlugin`
(HyprloadPlugin.cpp:90-96). -/
def buildCommand (headersPath sourcePath : Path) (steps : List String) : String :=
  "export HYPRLAND_HEADERS=" ++ pathToStr headersPath ++ " && cd " ++ pathToStr sourcePath
    ++ " && " ++ String.join (steps.map (fun s => s ++ " && ")) ++ "cd -"

/-- `buildPlugin(sourcePath, name)` (HyprloadPlugin.cpp:75-105). The headers
path is looked up first but only validated after the manifest loads; a
failing build embeds the captured output. Also returns the executed
actions. -/
def buildPlugin (env : Env) (sourcePath : Path) (name : String) : Res Unit × List Action :=
  match getPluginManifest env sourcePath name with
  | .ok pm =>
    match env.headers with
    | none =>
      (.err "Could not find hyprland headers. Refer to https://github.com/Duckonaut/hyprload#Setup", [])
    | some hp =>
      if (env.runExec (buildCommand hp sourcePath pm.buildSteps)).1 != 0 then
        (.err ("Failed to build plugin: " ++ (env.runExec (buildCommand hp sourcePath pm.buildSteps)).2),
         [.exec (buildCommand hp sourcePath pm.buildSteps)])
      else
        (.ok (), [.exec (buildCommand hp sourcePath pm.buildSteps)])
  | .err m => (.err m, [])
  | .thrown m => (.thrown m, [])
  | .crash => (.crash, [])

/-- The fields of a constructed `GitPluginSource`. -/
structure GitPluginSource where
  url : String
  branch : String
  sourcePath : Path
  deriving DecidableEq

/-- `GitPluginSource::GitPluginSource(url, branch)` (HyprloadPlugin.cpp:207-219):
normalize the URL (a bare `owner/repo` shorthand becomes
`https://github.com/owner/repo.git`), and derive the source tree path from
the normalized URL's final path segment under `<plugins-dir>/src`. -/
def mkGitPluginSource (pluginsPath : Path) (url branch : String) : GitPluginSource :=
  if strStartsWith url "https://" then
    ⟨url, branch, pluginsPath ++ ["src", afterLastSlash url]⟩
  else if strStartsWith url "git@" then
    ⟨url, branch, pluginsPath ++ ["src", afterLastSlash url]⟩
  else
    ⟨"https://github.com/" ++ url ++ ".git", branch,
      pluginsPath ++ ["src", afterLastSlash ("https://github.com/" ++ url ++ ".git")]⟩

/-- `GitPluginSource::installSource()` (HyprloadPlugin.cpp:221-229): a
shallow clone of the configured branch. -/
def gitInstallSource (env : Env) (src : GitPluginSource) : Res Unit × List Action :=
  if env.runSystem ("git clone " ++ src.url ++ " " ++ pathToStr src.sourcePath
      ++ " --branch " ++ src.branch ++ " --depth 1") != 0 then
    (.err "Failed to clone plugin source",
     [.system ("git clone " ++ src.url ++ " " ++ pathToStr src.sourcePath
        ++ " --branch " ++ src.branch ++ " --depth 1")])
  else
    (.ok (),
     [.system ("git clone " ++ src.url ++ " " ++ pathToStr src.sourcePath
        ++ " --branch " ++ src.branch ++ " --depth 1")])

/-- `GitPluginSource::isSourceAvailable()` (HyprloadPlugin.cpp:231-233). -/
def gitIsSourceAvailable (env : Env) (src : GitPluginSource) : Bool :=
  env.fsExists (src.sourcePath ++ [".git"])

/-- `GitPluginSource::isUpToDate()` (HyprloadPlugin.cpp:235-247): false when
`git remote update` fails; otherwise inspect `git status -uno` output. -/
def gitIsUpToDate (env : Env) (src : GitPluginSource) : Bool :=
  if env.runSystem ("git -C " ++ pathToStr src.sourcePath ++ " remote update") != 0 then
    false
  else
    (env.runExec ("git -C " ++ pathToStr src.sourcePath ++ " status -uno")).1 != 0
      && !(hasSubstr (env.runExec ("git -C " ++ pathToStr src.sourcePath ++ " status -uno")).2 "ahead")

/-- `LocalPluginSource::isUpToDate()` (HyprloadPlugin.cpp:315-318): always
false, with no look at the environment. -/
def localIsUpToDate (_env : Env) (_sourcePath : Path) : Bool := false

/-- Modelled from the spec: `hyprload::getPluginBinariesPath()` is defined in
`Hyprload.cpp`, outside the given source; the spec's filesystem layout fixes
the published-artifact directory as `<plugins-dir>/bin`. -/
def getPluginBinariesPath (pluginsPath : Path) : Path := pluginsPath ++ ["bin"]

/-- The publish tail shared verbatim by `GitPluginSource::install`
(HyprloadPlugin.cpp:278-292) and `LocalPluginSource::install`
(HyprloadPlugin.cpp:343-357): locate the declared output binary, fail if it
does not exist, remove any file already at
`getPluginBinariesPath() / outputBinary.filename()`, and copy. -/
def publishArtifact (env : Env) (pluginsPath sourcePath : Path) (pm : PluginManifest) :
    Res Unit × List Action :=
  if env.fsExists (pathJoin sourcePath pm.binaryOutputPath) = false then
    (.err "Plugin binary does not exist", [])
  else if env.fsExists (getPluginBinariesPath pluginsPath
      ++ [pathFilename (pathJoin sourcePath pm.binaryOutputPath)]) = true then
    (.ok (),
     [.remove (getPluginBinariesPath pluginsPath
        ++ [pathFilename (pathJoin sourcePath pm.binaryOutputPath)]),
      .copy (pathJoin sourcePath pm.binaryOutputPath)
        (getPluginBinariesPath pluginsPath
          ++ [pathFilename (pathJoin sourcePath pm.binaryOutputPath)])])
  else
    (.ok (),
     [.copy (pathJoin sourcePath pm.binaryOutputPath)
        (getPluginBinariesPath pluginsPath
          ++ [pathFilename (pathJoin sourcePath pm.binaryOutputPath)])])

/-- `GitPluginSource::install(name)` (HyprloadPlugin.cpp:259-293): when the
tree is absent, only clone; otherwise build, reload the manifest, and
publish the declared artifact. -/
def gitInstall (env : Env) (pluginsPath : Path) (src : GitPluginSource) (name : String) :
    Res Unit × List Action :=
  if gitIsSourceAvailable env src = false then
    gitInstallSource env src
  else
    match (buildPlugin env src.sourcePath name).1 with
    | .ok _ =>
      (match getPluginManifest env src.sourcePath name with
       | .ok pm =>
         ((publishArtifact env pluginsPath src.sourcePath pm).1,
          (buildPlugin env src.sourcePath name).2
            ++ (publishArtifact env pluginsPath src.sourcePath pm).2)
       | .err m => (.err m, (buildPlugin env src.sourcePath name).2)
       | .thrown m => (.thrown m, (buildPlugin env src.sourcePath name).2)
       | .crash => (.crash, (buildPlugin env src.sourcePath name).2))
    | .err m => (.err m, (buildPlugin env src.sourcePath name).2)
    | .thrown m => (.thrown m, (buildPlugin env src.sourcePath name).2)
    | .crash => (.crash, (buildPlugin env src.sourcePath name).2)

/-- `LocalPluginSource::install(name)` (HyprloadPlugin.cpp:324-358): fail if
the directory is absent; otherwise build, reload the manifest, publish. -/
def localInstall (env : Env) (pluginsPath sourcePath : Path) (name : String) :
    Res Unit × List Action :=
  if env.fsExists sourcePath = false then
    (.err ("Source for " ++ name ++ " does not exist"), [])
  else
    match (buildPlugin env sourcePath name).1 with
    | .ok _ =>
      (match getPluginManifest env sourcePath name with
       | .ok pm =>
         ((publishArtifact env pluginsPath sourcePath pm).1,
          (buildPlugin env sourcePath name).2
            ++ (publishArtifact env pluginsPath sourcePath pm).2)
       | .err m => (.err m, (buildPlugin env sourcePath name).2)
       | .thrown m => (.thrown m, (buildPlugin env sourcePath name).2)
       | .crash => (.crash, (buildPlugin env sourcePath name).2))
    | .err m => (.err m, (buildPlugin env sourcePath name).2)
    | .thrown m => (.thrown m, (buildPlugin env sourcePath name).2)
    | .crash => (.crash, (buildPlugin env sourcePath name).2)

/-- The chosen source variant of a `PluginRequirement`. -/
inductive PluginSourceV where
  | git (g : GitPluginSource)
  | loc (p : Path)
  deriving DecidableEq

/-- The fields of a constructed `PluginRequirement`. -/
structure PluginRequirement where
  name : String
  source : PluginSourceV
  binaryPath : Path
  deriving DecidableEq

/-- `PluginRequirement::PluginRequirement(plugin)` (HyprloadPlugin.cpp:370-397):
a string-valued `git` field wins (with a string-valued `branch` defaulting
to `"main"`), else a string-valued `local` field, else a thrown
missing-source error; the name is a string-valued `name` field or the
source string's final path segment; the binary path is
`<plugins-dir>/bin/<name>.so`. -/
def mkPluginRequirement (pluginsPath : Path) (plugin : TomlTable) : Res PluginRequirement :=
  match tlookup plugin "git" with
  | some (.str source) =>
    .ok ⟨(match tlookup plugin "name" with
          | some (.str n) => n
          | _ => afterLastSlash source),
         .git (mkGitPluginSource pluginsPath source
           (match tlookup plugin "branch" with
            | some (.str b) => b
            | _ => "main")),
         pluginsPath ++ ["bin",
           (match tlookup plugin "name" with
            | some (.str n) => n
            | _ => afterLastSlash source) ++ ".so"]⟩
  | _ =>
    match tlookup plugin "local" with
    | some (.str source) =>
      .ok ⟨(match tlookup plugin "name" with
            | some (.str n) => n
            | _ => afterLastSlash source),
           .loc (splitPath source),
           pluginsPath ++ ["bin",
             (match tlookup plugin "name" with
              | some (.str n) => n
              | _ => afterLastSlash source) ++ ".so"]⟩
    | _ => .thrown "Plugin must have a source"

/-- The option holds a string, or nothing. -/
def strOrAbsent : Option Toml → Bool
  | some v => Toml.isStr v
  | none => true

/-- Every element of an `authors` array (when there is one) is a string. -/
def authorsElemsOk (t : TomlTable) : Bool :=
  match tlookup t "authors" with
  | some (.arr xs) => xs.all Toml.isStr
  | _ => true

/-- The scalar `author` field is a string whenever the constructor would
dereference it (that is, whenever `authors` is absent or not an array). -/
def authorScalarOk (t : TomlTable) : Bool :=
  match tlookup t "authors" with
  | some (.arr _) => true
  | _ => strOrAbsent (tlookup t "author")

/-- The scalar fields `PluginManifest::PluginManifest` dereferences as
strings (`author` when consulted, `version`, `description`) are strings
whenever present: exactly the condition under which the constructor cannot
crash. -/
def scalarsOk (t : TomlTable) : Bool :=
  authorScalarOk t && strOrAbsent (tlookup t "version") && strOrAbsent (tlookup t "description")

/-- Drop every binding of `key` from a table. -/
def eraseKey : TomlTable → String → TomlTable
  | [], _ => []
  | (k, v) :: rest, key => if k == key then eraseKey rest key else (k, v) :: eraseKey rest key

/-- A Git source built from the shorthand requirement `{git = "foo/bar"}`. -/
def srcBar : GitPluginSource := mkGitPluginSource ["plugins"] "foo/bar" "main"

/-- The manifest `envPub` serves for plugin `bar`: build step `make`,
declared output `custom.so`. -/
def pmBar : PluginManifest :=
  ⟨"bar", [], "0.0.0", "No description provided", "custom.so", ["make"]⟩

/-- A world where `srcBar`'s tree is present with a `hyprload.toml` declaring
output `custom.so`, the headers are installed, every command succeeds, and
the built artifact exists; the publish target does not exist yet. -/
def envPub : Env :=
  ⟨fun p =>
      p == ["plugins", "src", "bar.git", ".git"] ||
      p == ["plugins", "src", "bar.git", "hyprload.toml"] ||
      p == ["plugins", "src", "bar.git", "custom.so"],
   fun _ =>
      .ok [("bar", Toml.table [("build",
        Toml.table [("steps", Toml.arr [Toml.str "make"]), ("output", Toml.str "custom.so")])])],
   some ["usr", "include", "hyprland"],
   fun _ => 0,
   fun _ => (0, "")⟩

/-- A world where nothing exists on disk and every command fails. -/
def envAbsent : Env :=
  ⟨fun _ => false, fun _ => .error "unused", none, fun _ => 1, fun _ => (1, "")⟩

/-- A world where `std::system` always succeeds and `executeCommand` always
returns exit 1 with output `"ok"`. -/
def envFetchOk : Env :=
  ⟨fun _ => false, fun _ => .error "unused", none, fun _ => 0, fun _ => (1, "ok")⟩

/-- A world with a well-formed manifest for plugin `p` everywhere, but no
hyprland headers. -/
def envNoHeaders : Env :=
  ⟨fun _ => true,
   fun _ => .ok [("p", Toml.table [("build", Toml.table [("steps", Toml.arr [Toml.str "make"])])])],
   none, fun _ => 0, fun _ => (0, "")⟩

/-- The manifest `envNoHeaders` serves for plugin `p`. -/
def pmP : PluginManifest := ⟨"p", [], "0.0.0", "No description provided", "p.so", ["make"]⟩

theorem parseAuthorsList_thrown (xs : List Toml) (h : ∃ x ∈ xs, Toml.isStr x = false) :
    parseAuthorsList xs = .thrown "Author must be a string" := by
  induction xs with
  | nil => simp at h
  | cons x rest ih =>
    obtain ⟨y, hy, hbad⟩ := h
    cases x with
    | str s =>
      have hr : ∃ z ∈ rest, Toml.isStr z = false := by
        rcases List.mem_cons.mp hy with h1 | h1
        · subst h1; simp [Toml.isStr] at hbad
        · exact ⟨y, h1, hbad⟩
      simp [parseAuthorsList, ih hr, Res.map]
    | int n => rfl
    | boolean b => rfl
    | arr a => rfl
    | table kvs => rfl

theorem parseAuthorsList_ok_or_thrown (xs : List Toml) :
    (∃ l, parseAuthorsList xs = .ok l) ∨ parseAuthorsList xs = .thrown "Author must be a string" := by
  induction xs with
  | nil => exact .inl ⟨[], rfl⟩
  | cons x rest ih =>
    cases x with
    | str s =>
      rcases ih with ⟨l, hl⟩ | hl
      · exact .inl ⟨s :: l, by simp [parseAuthorsList, hl, Res.map]⟩
      · exact .inr (by simp [parseAuthorsList, hl, Res.map])
    | int n => exact .inr rfl
    | boolean b => exact .inr rfl
    | arr a => exact .inr rfl
    | table kvs => exact .inr rfl

theorem parseAuthorsList_ok (xs : List Toml) (h : xs.all Toml.isStr = true) :
    ∃ l, parseAuthorsList xs = .ok l := by
  induction xs with
  | nil => exact ⟨[], rfl⟩
  | cons x rest ih =>
    simp only [List.all_cons, Bool.and_eq_true] at h
    obtain ⟨hx, hrest⟩ := h
    cases x with
    | str s =>
      obtain ⟨l, hl⟩ := ih hrest
      exact ⟨s :: l, by simp [parseAuthorsList, hl, Res.map]⟩
    | int n => simp [Toml.isStr] at hx
    | boolean b => simp [Toml.isStr] at hx
    | arr a => simp [Toml.isStr] at hx
    | table kvs => simp [Toml.isStr] at hx

theorem parseSteps_thrown (xs : List Toml) (h : ∃ x ∈ xs, Toml.isStr x = false) :
    parseSteps xs = .thrown "Build step must be a string" := by
  induction xs with
  | nil => simp at h
  | cons x rest ih =>
    obtain ⟨y, hy, hbad⟩ := h
    cases x with
    | str s =>
      have hr : ∃ z ∈ rest, Toml.isStr z = false := by
        rcases List.mem_cons.mp hy with h1 | h1
        · subst h1; simp [Toml.isStr] at hbad
        · exact ⟨y, h1, hbad⟩
      simp [parseSteps, ih hr, Res.map]
    | int n => rfl
    | boolean b => rfl
    | arr a => rfl
    | table kvs => rfl

theorem parseSteps_ok_or_thrown (xs : List Toml) :
    (∃ l, parseSteps xs = .ok l) ∨ parseSteps xs = .thrown "Build step must be a string" := by
  induction xs with
  | nil => exact .inl ⟨[], rfl⟩
  | cons x rest ih =>
    cases x with
    | str s =>
      rcases ih with ⟨l, hl⟩ | hl
      · exact .inl ⟨s :: l, by simp [parseSteps, hl, Res.map]⟩
      · exact .inr (by simp [parseSteps, hl, Res.map])
    | int n => exact .inr rfl
    | boolean b => exact .inr rfl
    | arr a => exact .inr rfl
    | table kvs => exact .inr rfl

theorem parseAuthorFallback_ok (t : TomlTable) (h : strOrAbsent (tlookup t "author") = true) :
    ∃ l, parseAuthorFallback t = .ok l := by
  unfold parseAuthorFallback
  cases ha : tlookup t "author" with
  | none => exact ⟨[], rfl⟩
  | some v =>
    rw [ha] at h
    cases v with
    | str s => exact ⟨[s], rfl⟩
    | int n => simp [strOrAbsent, Toml.isStr] at h
    | boolean b => simp [strOrAbsent, Toml.isStr] at h
    | arr a => simp [strOrAbsent, Toml.isStr] at h
    | table kvs => simp [strOrAbsent, Toml.isStr] at h

theorem parseAuthors_ok_or_thrown (t : TomlTable) (h : authorScalarOk t = true) :
    (∃ l, parseAuthors t = .ok l) ∨ (∃ e, parseAuthors t = .thrown e) := by
  unfold parseAuthors
  unfold authorScalarOk at h
  cases hau : tlookup t "authors" with
  | none =>
    rw [hau] at h
    exact .inl (parseAuthorFallback_ok t h)
  | some v =>
    rw [hau] at h
    cases v with
    | arr xs =>
      rcases parseAuthorsList_ok_or_thrown xs with h1 | h1
      · exact .inl h1
      · exact .inr ⟨_, h1⟩
    | str s => exact .inl (parseAuthorFallback_ok t h)
    | int n => exact .inl (parseAuthorFallback_ok t h)
    | boolean b => exact .inl (parseAuthorFallback_ok t h)
    | table kvs => exact .inl (parseAuthorFallback_ok t h)

theorem parseStringOr_ok (t : TomlTable) (key dflt : String)
    (h : strOrAbsent (tlookup t key) = true) : ∃ s, parseStringOr t key dflt = .ok s := by
  unfold parseStringOr
  cases hk : tlookup t key with
  | none => exact ⟨dflt, rfl⟩
  | some v =>
    rw [hk] at h
    cases v with
    | str s => exact ⟨s, rfl⟩
    | int n => simp [strOrAbsent, Toml.isStr] at h
    | boolean b => simp [strOrAbsent, Toml.isStr] at h
    | arr a => simp [strOrAbsent, Toml.isStr] at h
    | table kvs => simp [strOrAbsent, Toml.isStr] at h

theorem parseBuild_ok_or_thrown (name : String) (t : TomlTable) :
    (∃ v, parseBuild name t = .ok v) ∨ (∃ e, parseBuild name t = .thrown e) := by
  cases hb : tlookup t "build" with
  | none =>
    exact .inr ⟨"Plugin must have a build table", by simp [parseBuild, hb]⟩
  | some v =>
    cases v with
    | table b =>
      cases hs : tlookup b "steps" with
      | none =>
        exact .inr ⟨"Plugin must have build steps", by simp [parseBuild, hb, hs]⟩
      | some w =>
        cases w with
        | arr xs =>
          rcases parseSteps_ok_or_thrown xs with ⟨l, hl⟩ | hl
          · have heq : parseBuild name t =
                .ok (match tlookup b "output" with
                     | some (.str s) => s
                     | _ => name ++ ".so", l) := by
              simp [parseBuild, hb, hs, hl, Res.map]
            exact .inl ⟨_, heq⟩
          · exact .inr ⟨"Build step must be a string", by simp [parseBuild, hb, hs, hl, Res.map]⟩
        | str s => exact .inr ⟨"Plugin must have build steps", by simp [parseBuild, hb, hs]⟩
        | int n => exact .inr ⟨"Plugin must have build steps", by simp [parseBuild, hb, hs]⟩
        | boolean bb => exact .inr ⟨"Plugin must have build steps", by simp [parseBuild, hb, hs]⟩
        | table kvs => exact .inr ⟨"Plugin must have build steps", by simp [parseBuild, hb, hs]⟩
    | str s => exact .inr ⟨"Plugin must have a build table", by simp [parseBuild, hb]⟩
    | int n => exact .inr ⟨"Plugin must have a build table", by simp [parseBuild, hb]⟩
    | boolean bb => exact .inr ⟨"Plugin must have a build table", by simp [parseBuild, hb]⟩
    | arr a => exact .inr ⟨"Plugin must have a build table", by simp [parseBuild, hb]⟩

theorem scalarsOk_split (t : TomlTable) (h : scalarsOk t = true) :
    authorScalarOk t = true ∧ strOrAbsent (tlookup t "version") = true ∧
      strOrAbsent (tlookup t "description") = true := by
  simp only [scalarsOk, Bool.and_eq_true] at h
  exact ⟨h.1.1, h.1.2, h.2⟩

theorem parseAuthors_ok (t : TomlTable) (h1 : authorScalarOk t = true)
    (ha : authorsElemsOk t = true) : ∃ l, parseAuthors t = .ok l := by
  unfold parseAuthors
  unfold authorScalarOk at h1
  unfold authorsElemsOk at ha
  cases hau : tlookup t "authors" with
  | none =>
    rw [hau] at h1
    exact parseAuthorFallback_ok t h1
  | some v =>
    rw [hau] at h1 ha
    cases v with
    | arr xs => exact parseAuthorsList_ok xs ha
    | str s => exact parseAuthorFallback_ok t h1
    | int n => exact parseAuthorFallback_ok t h1
    | boolean b => exact parseAuthorFallback_ok t h1
    | table kvs => exact parseAuthorFallback_ok t h1

theorem parseBuild_no_table (name : String) (t : TomlTable)
    (h : ∀ b, tlookup t "build" ≠ some (.table b)) :
    parseBuild name t = .thrown "Plugin must have a build table" := by
  cases hb : tlookup t "build" with
  | none => simp [parseBuild, hb]
  | some v =>
    cases v with
    | table b => exact absurd hb (h b)
    | str s => simp [parseBuild, hb]
    | int n => simp [parseBuild, hb]
    | boolean b => simp [parseBuild, hb]
    | arr a => simp [parseBuild, hb]

theorem parseBuild_no_steps (name : String) (t b : TomlTable)
    (hb : tlookup t "build" = some (.table b))
    (h : ∀ xs, tlookup b "steps" ≠ some (.arr xs)) :
    parseBuild name t = .thrown "Plugin must have build steps" := by
  cases hs : tlookup b "steps" with
  | none => simp [parseBuild, hb, hs]
  | some w =>
    cases w with
    | arr xs => exact absurd hs (h xs)
    | str s => simp [parseBuild, hb, hs]
    | int n => simp [parseBuild, hb, hs]
    | boolean bb => simp [parseBuild, hb, hs]
    | table kvs => simp [parseBuild, hb, hs]

theorem parseBuild_bad_step (name : String) (t b : TomlTable) (xs : List Toml)
    (hb : tlookup t "build" = some (.table b))
    (hs : tlookup b "steps" = some (.arr xs))
    (hbad : ∃ x ∈ xs, Toml.isStr x = false) :
    parseBuild name t = .thrown "Build step must be a string" := by
  simp [parseBuild, hb, hs, parseSteps_thrown xs hbad, Res.map]

theorem mkPluginManifest_ok_or_thrown (name : String) (t : TomlTable)
    (hs : scalarsOk t = true) :
    (∃ m, mkPluginManifest name t = .ok m) ∨ (∃ e, mkPluginManifest name t = .thrown e) := by
  obtain ⟨h1, h2, h3⟩ := scalarsOk_split t hs
  rcases parseAuthors_ok_or_thrown t h1 with ⟨l, hA⟩ | ⟨e, hA⟩
  · obtain ⟨v, hV⟩ := parseStringOr_ok t "version" "0.0.0" h2
    obtain ⟨d, hD⟩ := parseStringOr_ok t "description" "No description provided" h3
    rcases parseBuild_ok_or_thrown name t with ⟨ob, hB⟩ | ⟨e, hB⟩
    · exact .inl ⟨⟨name, l, v, d, ob.1, ob.2⟩,
        by simp [mkPluginManifest, hA, hV, hD, hB, Res.bind]⟩
    · exact .inr ⟨e, by simp [mkPluginManifest, hA, hV, hD, hB, Res.bind]⟩
  · exact .inr ⟨e, by simp [mkPluginManifest, hA, Res.bind]⟩

theorem mkPluginManifest_ok_inv (name : String) (t : TomlTable) (m : PluginManifest)
    (h : mkPluginManifest name t = .ok m) :
    parseAuthors t = .ok m.authors ∧
      parseBuild name t = .ok (m.binaryOutputPath, m.buildSteps) := by
  unfold mkPluginManifest at h
  cases hA : parseAuthors t with
  | ok l =>
    rw [hA] at h; simp only [Res.bind] at h
    cases hV : parseStringOr t "version" "0.0.0" with
    | ok v =>
      rw [hV] at h; simp only [Res.bind] at h
      cases hD : parseStringOr t "description" "No description provided" with
      | ok d =>
        rw [hD] at h; simp only [Res.bind] at h
        cases hB : parseBuild name t with
        | ok ob =>
          rw [hB] at h; simp only [Res.bind, Res.ok.injEq] at h
          subst h
          exact ⟨rfl, rfl⟩
        | err e => rw [hB] at h; simp [Res.bind] at h
        | thrown e => rw [hB] at h; simp [Res.bind] at h
        | crash => rw [hB] at h; simp [Res.bind] at h
      | err e => rw [hD] at h; simp [Res.bind] at h
      | thrown e => rw [hD] at h; simp [Res.bind] at h
      | crash => rw [hD] at h; simp [Res.bind] at h
    | err e => rw [hV] at h; simp [Res.bind] at h
    | thrown e => rw [hV] at h; simp [Res.bind] at h
    | crash => rw [hV] at h; simp [Res.bind] at h
  | err e => rw [hA] at h; simp [Res.bind] at h
  | thrown e => rw [hA] at h; simp [Res.bind] at h
  | crash => rw [hA] at h; simp [Res.bind] at h

theorem parseBuild_ok_inv (name : String) (t : TomlTable) (v : String × List String)
    (h : parseBuild name t = .ok v) :
    ∃ b xs, tlookup t "build" = some (.table b) ∧ tlookup b "steps" = some (.arr xs) ∧
      parseSteps xs = .ok v.2 := by
  cases hb : tlookup t "build" with
  | none => simp [parseBuild, hb] at h
  | some w =>
    cases w with
    | table b =>
      cases hs : tlookup b "steps" with
      | none => simp [parseBuild, hb, hs] at h
      | some u =>
        cases u with
        | arr xs =>
          cases hst : parseSteps xs with
          | ok l =>
            refine ⟨b, xs, rfl, hs, ?_⟩
            simp only [parseBuild, hb, hs, hst, Res.map, Res.ok.injEq] at h
            subst h
            rw [hst]
          | err e => simp [parseBuild, hb, hs, hst, Res.map] at h
          | thrown e => simp [parseBuild, hb, hs, hst, Res.map] at h
          | crash => simp [parseBuild, hb, hs, hst, Res.map] at h
        | str s => simp [parseBuild, hb, hs] at h
        | int n => simp [parseBuild, hb, hs] at h
        | boolean bb => simp [parseBuild, hb, hs] at h
        | table kvs => simp [parseBuild, hb, hs] at h
    | str s => simp [parseBuild, hb] at h
    | int n => simp [parseBuild, hb] at h
    | boolean bb => simp [parseBuild, hb] at h
    | arr a => simp [parseBuild, hb] at h

theorem mkPlugins_ok_or_thrown (tt : TomlTable)
    (h : ∀ k sub, (k, Toml.table sub) ∈ tt → scalarsOk sub = true) :
    (∃ l, mkPlugins tt = .ok l) ∨ (∃ e, mkPlugins tt = .thrown e) := by
  induction tt with
  | nil => exact .inl ⟨[], rfl⟩
  | cons kv rest ih =>
    obtain ⟨k, v⟩ := kv
    have hrest : ∀ k2 sub, (k2, Toml.table sub) ∈ rest → scalarsOk sub = true :=
      fun k2 sub hm => h k2 sub (List.mem_cons_of_mem _ hm)
    cases v with
    | table sub =>
      have hsub : scalarsOk sub = true := h k sub (List.mem_cons_self _ _)
      rcases mkPluginManifest_ok_or_thrown k sub hsub with ⟨m, hm⟩ | ⟨e, hm⟩
      · rcases ih hrest with ⟨l, hl⟩ | ⟨e, hl⟩
        · exact .inl ⟨m :: l, by simp [mkPlugins, hm, hl, Res.bind]⟩
        · exact .inr ⟨e, by simp [mkPlugins, hm, hl, Res.bind]⟩
      · exact .inr ⟨e, by simp [mkPlugins, hm, Res.bind]⟩
    | str s => simpa [mkPlugins] using ih hrest
    | int n => simpa [mkPlugins] using ih hrest
    | boolean b => simpa [mkPlugins] using ih hrest
    | arr a => simpa [mkPlugins] using ih hrest

theorem tlookup_eraseKey_self (t : TomlTable) (k : String) :
    tlookup (eraseKey t k) k = none := by
  induction t with
  | nil => rfl
  | cons kv rest ih =>
    obtain ⟨k1, v1⟩ := kv
    cases hk : (k1 == k) with
    | true => simp [eraseKey, hk, ih]
    | false => simp [eraseKey, hk, tlookup, ih]

theorem tlookup_eraseKey_ne (t : TomlTable) (k k2 : String) (h : (k2 == k) = false) :
    tlookup (eraseKey t k) k2 = tlookup t k2 := by
  induction t with
  | nil => rfl
  | cons kv rest ih =>
    obtain ⟨k1, v1⟩ := kv
    cases hk : (k1 == k) with
    | true =>
      have hk1 : k1 = k := by simpa using hk
      subst hk1
      have hne : (k1 == k2) = false := by
        simp only [beq_eq_false_iff_ne] at h ⊢
        exact fun h2 => h h2.symm
      simp [eraseKey, hk, tlookup, hne, ih]
    | false => simp [eraseKey, hk, tlookup, ih]

theorem parseAuthorFallback_eraseKey (t : TomlTable) :
    parseAuthorFallback (eraseKey t "authors") = parseAuthorFallback t := by
  unfold parseAuthorFallback
  rw [tlookup_eraseKey_ne t "authors" "author" (by decide)]

theorem parseStringOr_eraseKey (t : TomlTable) (key k dflt : String)
    (h : (key == k) = false) :
    parseStringOr (eraseKey t k) key dflt = parseStringOr t key dflt := by
  unfold parseStringOr
  rw [tlookup_eraseKey_ne t k key h]

theorem parseBuild_eraseKey (name : String) (t : TomlTable) :
    parseBuild name (eraseKey t "authors") = parseBuild name t := by
  unfold parseBuild
  rw [tlookup_eraseKey_ne t "authors" "build" (by decide)]

theorem parseAuthors_non_array (t : TomlTable) (v : Toml)
    (hv : tlookup t "authors" = some v) (hna : Toml.isArr v = false) :
    parseAuthors t = parseAuthorFallback t := by
  unfold parseAuthors
  rw [hv]
  cases v with
  | arr xs => simp [Toml.isArr] at hna
  | str s => rfl
  | int n => rfl
  | boolean b => rfl
  | table kvs => rfl

theorem parseAuthors_eraseKey_authors (t : TomlTable) :
    parseAuthors (eraseKey t "authors") = parseAuthorFallback t := by
  unfold parseAuthors
  rw [tlookup_eraseKey_self t "authors"]
  exact parseAuthorFallback_eraseKey t

/-- C4 (amended): the three claimed failure conditions each yield the stated
thrown parse error — the authors condition unconditionally (it is checked
first), the two `build` conditions provided the scalar fields read before
them (`version`, `description`, a consulted `author`) are strings and any
`authors` array is all-strings; a non-string consulted scalar instead makes
the constructor crash (null dereference) rather than report a parse error. -/
theorem manifest_parse_error_conditions (name : String) (t : TomlTable) :
    ((∃ xs, tlookup t "authors" = some (.arr xs) ∧ ∃ x ∈ xs, Toml.isStr x = false) →
      mkPluginManifest name t = .thrown "Author must be a string") ∧
    (scalarsOk t = true → authorsElemsOk t = true →
      (∀ b, tlookup t "build" ≠ some (.table b)) →
      mkPluginManifest name t = .thrown "Plugin must have a build table") ∧
    (scalarsOk t = true → authorsElemsOk t = true →
      ∀ b, tlookup t "build" = some (.table b) →
      (∀ xs, tlookup b "steps" ≠ some (.arr xs)) →
      mkPluginManifest name t = .thrown "Plugin must have build steps") ∧
    (scalarsOk t = true → authorsElemsOk t = true →
      ∀ b xs, tlookup t "build" = some (.table b) → tlookup b "steps" = some (.arr xs) →
      (∃ x ∈ xs, Toml.isStr x = false) →
      mkPluginManifest name t = .thrown "Build step must be a string") := by
  refine ⟨?_, ?_, ?_, ?_⟩
  · rintro ⟨xs, hxs, hbad⟩
    have hA : parseAuthors t = .thrown "Author must be a string" := by
      unfold parseAuthors
      rw [hxs]
      exact parseAuthorsList_thrown xs hbad
    simp [mkPluginManifest, hA, Res.bind]
  · intro hs ha hnb
    obtain ⟨h1, h2, h3⟩ := scalarsOk_split t hs
    obtain ⟨l, hA⟩ := parseAuthors_ok t h1 ha
    obtain ⟨v, hV⟩ := parseStringOr_ok t "version" "0.0.0" h2
    obtain ⟨d, hD⟩ := parseStringOr_ok t "description" "No description provided" h3
    simp [mkPluginManifest, hA, hV, hD, parseBuild_no_table name t hnb, Res.bind]
  · intro hs ha b hb hns
    obtain ⟨h1, h2, h3⟩ := scalarsOk_split t hs
    obtain ⟨l, hA⟩ := parseAuthors_ok t h1 ha
    obtain ⟨v, hV⟩ := parseStringOr_ok t "version" "0.0.0" h2
    obtain ⟨d, hD⟩ := parseStringOr_ok t "description" "No description provided" h3
    simp [mkPluginManifest, hA, hV, hD, parseBuild_no_steps name t b hb hns, Res.bind]
  · intro hs ha b xs hb hsteps hbad
    obtain ⟨h1, h2, h3⟩ := scalarsOk_split t hs
    obtain ⟨l, hA⟩ := parseAuthors_ok t h1 ha
    obtain ⟨v, hV⟩ := parseStringOr_ok t "version" "0.0.0" h2
    obtain ⟨d, hD⟩ := parseStringOr_ok t "description" "No description provided" h3
    simp [mkPluginManifest, hA, hV, hD, parseBuild_bad_step name t b xs hb hsteps hbad,
      Res.bind]

/-- Counterexample to C4 as stated: for the table `{version = 5}` the `build`
field is missing, yet construction does not fail with a parse error — it
dereferences the non-string `version` as a string first (undefined
behavior, `crash`). -/
theorem manifest_missing_build_crash_cex :
    mkPluginManifest "p" [("version", Toml.int 5)] = Res.crash ∧
    Res.isParseError (mkPluginManifest "p" [("version", Toml.int 5)]) = false ∧
    Res.isOk (mkPluginManifest "p" [("version", Toml.int 5)]) = false :=
  ⟨rfl, rfl, rfl⟩

/-- Witness for C4: a table whose `build` field is a non-table value throws
the build-table parse error. -/
theorem manifest_parse_error_conditions_witness :
    mkPluginManifest "w" [("build", Toml.str "x")] =
      Res.thrown "Plugin must have a build table" :=
  (manifest_parse_error_conditions "w" [("build", Toml.str "x")]).2.1 rfl rfl
    (fun _ h => Option.noConfusion h (fun h2 => Toml.noConfusion h2))

/-- Counterexample to C5: the manifest `{build = {steps = []}}` constructs
successfully with an empty `buildSteps` sequence. -/
theorem manifest_empty_steps_ok_cex :
    mkPluginManifest "p" [("build", Toml.table [("steps", Toml.arr [])])] =
      Res.ok ⟨"p", [], "0.0.0", "No description provided", "p.so", []⟩ := rfl

/-- C5 (amended): a successful `PluginManifest` construction requires
`build.steps` to be present as an array of strings, and `buildSteps` is
exactly the parsed array — which may be empty, so non-emptiness is not an
invariant. -/
theorem manifest_ok_buildSteps_inversion (name : String) (t : TomlTable)
    (m : PluginManifest) (h : mkPluginManifest name t = .ok m) :
    ∃ b xs, tlookup t "build" = some (.table b) ∧ tlookup b "steps" = some (.arr xs) ∧
      parseSteps xs = .ok m.buildSteps := by
  have h2 := (mkPluginManifest_ok_inv name t m h).2
  exact parseBuild_ok_inv name t _ h2

/-- Witness for C5: the inversion applied to a successfully constructed
manifest with one build step. -/
theorem manifest_ok_buildSteps_inversion_witness :
    ∃ b xs,
      tlookup [("build", Toml.table [("steps", Toml.arr [Toml.str "make"])])] "build"
        = some (Toml.table b) ∧
      tlookup b "steps" = some (Toml.arr xs) ∧
      parseSteps xs = Res.ok pmP.buildSteps :=
  manifest_ok_buildSteps_inversion "p"
    [("build", Toml.table [("steps", Toml.arr [Toml.str "make"])])] pmP rfl

/-- Counterexample to C6: a table whose `description` is a boolean makes
construction crash (null dereference): parsing is not total over arbitrary
non-string field types, and the outcome is neither a parsed object nor a
parse error. -/
theorem manifest_non_string_scalar_crash_cex :
    mkPluginManifest "p" [("description", Toml.boolean true),
        ("build", Toml.table [("steps", Toml.arr [Toml.str "make"])])] = Res.crash ∧
    Res.isOk (mkPluginManifest "p" [("description", Toml.boolean true),
        ("build", Toml.table [("steps", Toml.arr [Toml.str "make"])])]) = false ∧
    Res.isParseError (mkPluginManifest "p" [("description", Toml.boolean true),
        ("build", Toml.table [("steps", Toml.arr [Toml.str "make"])])]) = false :=
  ⟨rfl, rfl, rfl⟩

/-- C6 (amended): construction of a `PluginManifest` (and of a
`HyprloadManifest` from table-valued entries) terminates in a parsed object
or a thrown parse error provided every scalar field the constructor
dereferences as a string (`version`, `description`, a consulted `author`)
is a string; without that proviso the constructor can crash. -/
theorem manifest_parsing_total_on_string_scalars (name : String) (t tt : TomlTable) :
    (scalarsOk t = true →
      (∃ m, mkPluginManifest name t = .ok m) ∨ (∃ e, mkPluginManifest name t = .thrown e)) ∧
    ((∀ k sub, (k, Toml.table sub) ∈ tt → scalarsOk sub = true) →
      (∃ hm, mkHyprloadManifest tt = .ok hm) ∨ (∃ e, mkHyprloadManifest tt = .thrown e)) := by
  constructor
  · exact mkPluginManifest_ok_or_thrown name t
  · intro h
    rcases mkPlugins_ok_or_thrown tt h with ⟨l, hl⟩ | ⟨e, hl⟩
    · exact .inl ⟨⟨l⟩, by simp [mkHyprloadManifest, hl, Res.map]⟩
    · exact .inr ⟨e, by simp [mkHyprloadManifest, hl, Res.map]⟩

/-- Witness for C6: a table with a string `version` and no `build` table
lands in the ok-or-thrown disjunction. -/
theorem manifest_parsing_total_on_string_scalars_witness :
    (∃ m, mkPluginManifest "p" [("version", Toml.str "1.0")] = Res.ok m) ∨
    (∃ e, mkPluginManifest "p" [("version", Toml.str "1.0")] = Res.thrown e) :=
  (manifest_parsing_total_on_string_scalars "p" [("version", Toml.str "1.0")] []).1 rfl

/-- C10: a non-array `authors` value never fails construction on that field:
the whole construction behaves as if `authors` were absent, and on success
the parsed authors fall back to the scalar `author` string when present,
otherwise to the empty sequence. -/
theorem authors_non_array_ignored (name : String) (t : TomlTable) (v : Toml)
    (hv : tlookup t "authors" = some v) (hna : Toml.isArr v = false) :
    mkPluginManifest name t = mkPluginManifest name (eraseKey t "authors") ∧
    ∀ m, mkPluginManifest name t = .ok m →
      m.authors = (match tlookup t "author" with
                   | some (.str s) => [s]
                   | _ => []) := by
  have e1 : parseAuthors t = parseAuthorFallback t := parseAuthors_non_array t v hv hna
  constructor
  · simp only [mkPluginManifest, e1, parseAuthors_eraseKey_authors,
      parseStringOr_eraseKey t "version" "authors" "0.0.0" (by decide),
      parseStringOr_eraseKey t "description" "authors" "No description provided" (by decide),
      parseBuild_eraseKey name t]
  · intro m hm
    have hinv := (mkPluginManifest_ok_inv name t m hm).1
    rw [e1] at hinv
    unfold parseAuthorFallback at hinv
    cases ha : tlookup t "author" with
    | none =>
      rw [ha] at hinv
      simp only [Res.ok.injEq] at hinv
      exact hinv.symm
    | some w =>
      rw [ha] at hinv
      cases w with
      | str s =>
        simp only [Toml.asStringGet, Res.map, Res.ok.injEq] at hinv
        exact hinv.symm
      | int n => exact Res.noConfusion hinv
      | boolean b => exact Res.noConfusion hinv
      | arr a => exact Res.noConfusion hinv
      | table kvs => exact Res.noConfusion hinv

/-- Witness for C10: `authors = 3` (an integer) is ignored and the parsed
authors fall back to the scalar `author` field. -/
theorem authors_non_array_ignored_witness :
    mkPluginManifest "p" [("authors", Toml.int 3), ("author", Toml.str "duck"),
        ("build", Toml.table [("steps", Toml.arr [Toml.str "make"])])] =
      mkPluginManifest "p" (eraseKey [("authors", Toml.int 3), ("author", Toml.str "duck"),
        ("build", Toml.table [("steps", Toml.arr [Toml.str "make"])])] "authors") ∧
    ∀ m, mkPluginManifest "p" [("authors", Toml.int 3), ("author", Toml.str "duck"),
        ("build", Toml.table [("steps", Toml.arr [Toml.str "make"])])] = Res.ok m →
      m.authors = (match tlookup [("authors", Toml.int 3), ("author", Toml.str "duck"),
          ("build", Toml.table [("steps", Toml.arr [Toml.str "make"])])] "author" with
        | some (.str s) => [s]
        | _ => []) :=
  authors_non_array_ignored "p"
    [("authors", Toml.int 3), ("author", Toml.str "duck"),
     ("build", Toml.table [("steps", Toml.arr [Toml.str "make"])])]
    (Toml.int 3) rfl rfl

/-- C7 (amended): a string-valued `git` field always yields a Git source
(with a string-valued `branch` defaulting to `"main"`), taking priority over
`local`; otherwise a string-valued `local` field yields a Local source;
otherwise parsing throws the missing-source error — a `git` or `local` field
of non-string type is ignored by the selection. The entry
`{git = "foo/bar"}` resolves to name `"bar"`, URL
`https://github.com/foo/bar.git`, branch `"main"`, and binary path
`<plugins-dir>/bin/bar.so`. -/
theorem requirement_source_selection (P : Path) (t : TomlTable) :
    (∀ s, tlookup t "git" = some (.str s) →
      mkPluginRequirement P t = .ok
        ⟨(match tlookup t "name" with | some (.str n) => n | _ => afterLastSlash s),
         .git (mkGitPluginSource P s
           (match tlookup t "branch" with | some (.str b) => b | _ => "main")),
         P ++ ["bin",
           (match tlookup t "name" with | some (.str n) => n | _ => afterLastSlash s)
             ++ ".so"]⟩) ∧
    ((∀ s, tlookup t "git" ≠ some (.str s)) → ∀ s, tlookup t "local" = some (.str s) →
      mkPluginRequirement P t = .ok
        ⟨(match tlookup t "name" with | some (.str n) => n | _ => afterLastSlash s),
         .loc (splitPath s),
         P ++ ["bin",
           (match tlookup t "name" with | some (.str n) => n | _ => afterLastSlash s)
             ++ ".so"]⟩) ∧
    ((∀ s, tlookup t "git" ≠ some (.str s)) → (∀ s, tlookup t "local" ≠ some (.str s)) →
      mkPluginRequirement P t = .thrown "Plugin must have a source") ∧
    mkPluginRequirement P [("git", Toml.str "foo/bar")] =
      .ok ⟨"bar", .git ⟨"https://github.com/foo/bar.git", "main", P ++ ["src", "bar.git"]⟩,
           P ++ ["bin", "bar.so"]⟩ := by
  refine ⟨?_, ?_, ?_, rfl⟩
  · intro s hgit
    simp [mkPluginRequirement, hgit]
  · intro hng s hloc
    cases hg : tlookup t "git" with
    | none => simp [mkPluginRequirement, hg, hloc]
    | some w =>
      cases w with
      | str s2 => exact absurd hg (hng s2)
      | int n => simp [mkPluginRequirement, hg, hloc]
      | boolean b => simp [mkPluginRequirement, hg, hloc]
      | arr a => simp [mkPluginRequirement, hg, hloc]
      | table kvs => simp [mkPluginRequirement, hg, hloc]
  · intro hng hnl
    cases hg : tlookup t "git" with
    | none =>
      cases hl : tlookup t "local" with
      | none => simp [mkPluginRequirement, hg, hl]
      | some w =>
        cases w with
        | str s2 => exact absurd hl (hnl s2)
        | int n => simp [mkPluginRequirement, hg, hl]
        | boolean b => simp [mkPluginRequirement, hg, hl]
        | arr a => simp [mkPluginRequirement, hg, hl]
        | table kvs => simp [mkPluginRequirement, hg, hl]
    | some w =>
      cases w with
      | str s2 => exact absurd hg (hng s2)
      | int n =>
        cases hl : tlookup t "local" with
        | none => simp [mkPluginRequirement, hg, hl]
        | some w2 =>
          cases w2 with
          | str s2 => exact absurd hl (hnl s2)
          | int n2 => simp [mkPluginRequirement, hg, hl]
          | boolean b2 => simp [mkPluginRequirement, hg, hl]
          | arr a2 => simp [mkPluginRequirement, hg, hl]
          | table kvs2 => simp [mkPluginRequirement, hg, hl]
      | boolean b =>
        cases hl : tlookup t "local" with
        | none => simp [mkPluginRequirement, hg, hl]
        | some w2 =>
          cases w2 with
          | str s2 => exact absurd hl (hnl s2)
          | int n2 => simp [mkPluginRequirement, hg, hl]
          | boolean b2 => simp [mkPluginRequirement, hg, hl]
          | arr a2 => simp [mkPluginRequirement, hg, hl]
          | table kvs2 => simp [mkPluginRequirement, hg, hl]
      | arr a =>
        cases hl : tlookup t "local" with
        | none => simp [mkPluginRequirement, hg, hl]
        | some w2 =>
          cases w2 with
          | str s2 => exact absurd hl (hnl s2)
          | int n2 => simp [mkPluginRequirement, hg, hl]
          | boolean b2 => simp [mkPluginRequirement, hg, hl]
          | arr a2 => simp [mkPluginRequirement, hg, hl]
          | table kvs2 => simp [mkPluginRequirement, hg, hl]
      | table kvs =>
        cases hl : tlookup t "local" with
        | none => simp [mkPluginRequirement, hg, hl]
        | some w2 =>
          cases w2 with
          | str s2 => exact absurd hl (hnl s2)
          | int n2 => simp [mkPluginRequirement, hg, hl]
          | boolean b2 => simp [mkPluginRequirement, hg, hl]
          | arr a2 => simp [mkPluginRequirement, hg, hl]
          | table kvs2 => simp [mkPluginRequirement, hg, hl]

/-- Counterexample to C7 as stated: the entry `{git = 5}` has a `git` field
present, yet no Git source is constructed — the non-string value fails the
`is_string()` guard and, with no other source field, parsing throws the
missing-source error. -/
theorem requirement_non_string_git_cex :
    mkPluginRequirement ["plugins"] [("git", Toml.int 5)] =
      Res.thrown "Plugin must have a source" ∧
    Res.isOk (mkPluginRequirement ["plugins"] [("git", Toml.int 5)]) = false :=
  ⟨rfl, rfl⟩

/-- Witness for C7: a string `git` shorthand with an explicit branch builds
the expected Git-backed requirement. -/
theorem requirement_source_selection_witness :
    mkPluginRequirement ["p"] [("git", Toml.str "x/y"), ("branch", Toml.str "dev")] =
      Res.ok ⟨"y", .git (mkGitPluginSource ["p"] "x/y" "dev"), ["p", "bin", "y.so"]⟩ :=
  (requirement_source_selection ["p"]
    [("git", Toml.str "x/y"), ("branch", Toml.str "dev")]).1 "x/y" rfl

/-- C9 (amended): for a shorthand (non-`https://`, non-`git@`) Git source
string, the source tree path is `<plugins-dir>/src/<final path segment of
the normalized URL>`; since the normalized URL ends in `.git`, that segment
carries the `.git` suffix (e.g. `bar.git` for `foo/bar`), so it is not equal
to the requirement's derived name. -/
theorem git_sourcePath_last_url_segment (P : Path) (u b : String)
    (h1 : strStartsWith u "https://" = false) (h2 : strStartsWith u "git@" = false) :
    mkGitPluginSource P u b =
      ⟨"https://github.com/" ++ u ++ ".git", b,
       P ++ ["src", afterLastSlash ("https://github.com/" ++ u ++ ".git")]⟩ ∧
    afterLastSlash "https://github.com/foo/bar.git" = "bar.git" := by
  constructor
  · simp [mkGitPluginSource, h1, h2]
  · decide

/-- Counterexample to C9 as stated: for the shorthand `foo/bar` the derived
requirement name is `bar`, but the source tree is placed under
`src/bar.git`, not `src/bar`. -/
theorem git_sourcePath_keeps_dot_git_cex :
    srcBar.sourcePath = ["plugins", "src", "bar.git"] ∧
    afterLastSlash "foo/bar" = "bar" ∧
    (["plugins", "src", "bar.git"] : Path) ≠ ["plugins", "src", "bar"] :=
  ⟨by decide, by decide, by decide⟩

/-- Witness for C9: the source path derivation evaluated on `foo/bar`. -/
theorem git_sourcePath_last_url_segment_witness :
    mkGitPluginSource ["p"] "foo/bar" "main" =
      ⟨"https://github.com/" ++ "foo/bar" ++ ".git", "main",
       ["p"] ++ ["src", afterLastSlash ("https://github.com/" ++ "foo/bar" ++ ".git")]⟩ ∧
    afterLastSlash "https://github.com/foo/bar.git" = "bar.git" :=
  git_sourcePath_last_url_segment ["p"] "foo/bar" "main" rfl rfl

/-- C3: the Git variant's `isUpToDate` returns true only when the remote
fetch (`git remote update`) succeeded and the `git status -uno` output has
no `ahead` marker; the Local variant returns false unconditionally, for
every environment and directory. -/
theorem isUpToDate_fetch_and_ahead_contract (env : Env) (src : GitPluginSource) (p : Path) :
    (gitIsUpToDate env src = true →
      env.runSystem ("git -C " ++ pathToStr src.sourcePath ++ " remote update") = 0 ∧
      hasSubstr (env.runExec ("git -C " ++ pathToStr src.sourcePath ++ " status -uno")).2
        "ahead" = false) ∧
    localIsUpToDate env p = false := by
  constructor
  · intro h
    unfold gitIsUpToDate at h
    by_cases hc :
        env.runSystem ("git -C " ++ pathToStr src.sourcePath ++ " remote update") = 0
    · refine ⟨hc, ?_⟩
      rw [hc] at h
      simp only [bne_iff_ne, ne_eq, not_true_eq_false, if_false, ite_false,
        Bool.and_eq_true, Bool.not_eq_true', decide_eq_true_eq] at h
      · exact h.2
    · simp [bne_iff_ne, hc] at h
  · rfl

/-- Witness for C3: a world where the fetch exits 0 and the status command
exits 1 with output `ok` makes the Git variant report up-to-date, hence the
fetch succeeded and no `ahead` marker occurred. -/
theorem isUpToDate_fetch_and_ahead_contract_witness :
    envFetchOk.runSystem ("git -C " ++ pathToStr srcBar.sourcePath ++ " remote update") = 0 ∧
    hasSubstr (envFetchOk.runExec ("git -C " ++ pathToStr srcBar.sourcePath
      ++ " status -uno")).2 "ahead" = false :=
  (isUpToDate_fetch_and_ahead_contract envFetchOk srcBar []).1 rfl

/-- C8 (amended): `buildPlugin` looks the headers path up first but
validates it only after the plugin manifest loads: a manifest error is
returned verbatim with no build command run, regardless of the headers, and
the setup-instructions error is returned exactly when the manifest loads
successfully and the headers are missing. -/
theorem buildPlugin_headers_checked_after_manifest (env : Env) (sp : Path) (name : String) :
    (env.headers = none → ∀ pm, getPluginManifest env sp name = .ok pm →
      buildPlugin env sp name =
        (.err "Could not find hyprland headers. Refer to https://github.com/Duckonaut/hyprload#Setup",
         [])) ∧
    (∀ e, getPluginManifest env sp name = .err e →
      buildPlugin env sp name = (.err e, [])) := by
  constructor
  · intro hh pm hm
    simp [buildPlugin, hm, hh]
  · intro e hm
    simp [buildPlugin, hm]

/-- Counterexample to C8 as stated: with the headers missing and the
manifest also missing, `buildPlugin` fails with the manifest error, not the
setup-instructions error — the headers check does not come first. -/
theorem buildPlugin_manifest_error_precedes_headers_cex :
    envAbsent.headers = none ∧
    buildPlugin envAbsent ["s"] "p" =
      (Res.err "Source does not have a hyprload.toml manifest", []) ∧
    "Source does not have a hyprload.toml manifest" ≠
      "Could not find hyprland headers. Refer to https://github.com/Duckonaut/hyprload#Setup" :=
  ⟨rfl, rfl, by decide⟩

/-- Witness for C8: headers missing but manifest loadable yields the
setup-instructions error with no build action. -/
theorem buildPlugin_headers_checked_after_manifest_witness :
    buildPlugin envNoHeaders ["s"] "p" =
      (Res.err "Could not find hyprland headers. Refer to https://github.com/Duckonaut/hyprload#Setup",
       []) :=
  (buildPlugin_headers_checked_after_manifest envNoHeaders ["s"] "p").1 rfl pmP rfl

/-- C2: `GitPluginSource::install` on an Absent tree (no `.git` directory)
performs only the clone and returns its result — the one action is the
`git clone` command, no build runs; on a Present tree it builds (build
errors propagate with no publish), reloads the manifest, fails with the
artifact error when the declared output binary does not exist, and
otherwise removes any existing file at the target path and copies the fresh
artifact. -/
theorem gitInstall_flow (env : Env) (P : Path) (src : GitPluginSource) (name : String) :
    (gitIsSourceAvailable env src = false →
      gitInstall env P src name = gitInstallSource env src ∧
      (gitInstallSource env src).2 =
        [.system ("git clone " ++ src.url ++ " " ++ pathToStr src.sourcePath
          ++ " --branch " ++ src.branch ++ " --depth 1")]) ∧
    (gitIsSourceAvailable env src = true →
      (∀ e, (buildPlugin env src.sourcePath name).1 = .err e →
        gitInstall env P src name = (.err e, (buildPlugin env src.sourcePath name).2)) ∧
      (∀ pm, (buildPlugin env src.sourcePath name).1 = .ok () →
        getPluginManifest env src.sourcePath name = .ok pm →
        ((env.fsExists (pathJoin src.sourcePath pm.binaryOutputPath) = false →
          gitInstall env P src name =
            (.err "Plugin binary does not exist", (buildPlugin env src.sourcePath name).2)) ∧
         (env.fsExists (pathJoin src.sourcePath pm.binaryOutputPath) = true →
          publishArtifact env P src.sourcePath pm =
            (.ok (),
             if env.fsExists (getPluginBinariesPath P
                 ++ [pathFilename (pathJoin src.sourcePath pm.binaryOutputPath)]) = true then
               [.remove (getPluginBinariesPath P
                  ++ [pathFilename (pathJoin src.sourcePath pm.binaryOutputPath)]),
                .copy (pathJoin src.sourcePath pm.binaryOutputPath)
                  (getPluginBinariesPath P
                    ++ [pathFilename (pathJoin src.sourcePath pm.binaryOutputPath)])]
             else
               [.copy (pathJoin src.sourcePath pm.binaryOutputPath)
                 (getPluginBinariesPath P
                   ++ [pathFilename (pathJoin src.sourcePath pm.binaryOutputPath)])]) ∧
          gitInstall env P src name =
            ((publishArtifact env P src.sourcePath pm).1,
             (buildPlugin env src.sourcePath name).2
               ++ (publishArtifact env P src.sourcePath pm).2))))) := by
  constructor
  · intro habs
    refine ⟨by simp [gitInstall, habs], ?_⟩
    unfold gitInstallSource
    split <;> rfl
  · intro hav
    constructor
    · intro e he
      simp [gitInstall, hav, he]
    · intro pm hb hm
      constructor
      · intro hout
        simp [gitInstall, hav, hb, hm, publishArtifact, hout]
      · intro hout
        constructor
        · by_cases ht : env.fsExists (getPluginBinariesPath P
              ++ [pathFilename (pathJoin src.sourcePath pm.binaryOutputPath)]) = true
          · simp [publishArtifact, hout, ht]
          · simp [publishArtifact, hout, ht]
        · simp [gitInstall, hav, hb, hm]

/-- Witness for C2: in a world with nothing on disk the install of `srcBar`
is exactly its clone attempt, whose only action is the `git clone`
command. -/
theorem gitInstall_flow_witness :
    gitInstall envAbsent ["plugins"] srcBar "bar" = gitInstallSource envAbsent srcBar ∧
    (gitInstallSource envAbsent srcBar).2 =
      [Action.system ("git clone " ++ srcBar.url ++ " " ++ pathToStr srcBar.sourcePath
        ++ " --branch " ++ srcBar.branch ++ " --depth 1")] :=
  (gitInstall_flow envAbsent ["plugins"] srcBar "bar").1 rfl

/-- C1 (amended): the publish step copies the built artifact into the
plugin binaries directory under the artifact's own declared filename — the
filename component of the manifest's `binaryOutputPath` — not under
`<resolved name>.so`: no rename happens, so the target coincides with the
requirement's canonical binary path only when the declared output filename
is `<name>.so` (as with the default). Both install variants end a
successful run with exactly the publish step's actions. -/
theorem install_copy_preserves_declared_artifact_filename (env : Env) (P : Path)
    (src : GitPluginSource) (lp : Path) (name : String) (pm : PluginManifest) :
    (env.fsExists (pathJoin src.sourcePath pm.binaryOutputPath) = true →
      (publishArtifact env P src.sourcePath pm).1 = .ok () ∧
      (publishArtifact env P src.sourcePath pm).2.getLast? =
        some (.copy (pathJoin src.sourcePath pm.binaryOutputPath)
          (getPluginBinariesPath P
            ++ [pathFilename (pathJoin src.sourcePath pm.binaryOutputPath)]))) ∧
    (gitIsSourceAvailable env src = true →
      (buildPlugin env src.sourcePath name).1 = .ok () →
      getPluginManifest env src.sourcePath name = .ok pm →
      gitInstall env P src name =
        ((publishArtifact env P src.sourcePath pm).1,
         (buildPlugin env src.sourcePath name).2
           ++ (publishArtifact env P src.sourcePath pm).2)) ∧
    (env.fsExists lp = true →
      (buildPlugin env lp name).1 = .ok () →
      getPluginManifest env lp name = .ok pm →
      localInstall env P lp name =
        ((publishArtifact env P lp pm).1,
         (buildPlugin env lp name).2 ++ (publishArtifact env P lp pm).2)) := by
  refine ⟨?_, ?_, ?_⟩
  · intro hout
    by_cases ht : env.fsExists (getPluginBinariesPath P
        ++ [pathFilename (pathJoin src.sourcePath pm.binaryOutputPath)]) = true
    · simp [publishArtifact, hout, ht]
    · simp [publishArtifact, hout, ht]
  · intro hav hb hm
    simp [gitInstall, hav, hb, hm]
  · intro hex hb hm
    simp [localInstall, hex, hb, hm]

/-- Counterexample to C1 as stated: in `envPub` the requirement `foo/bar`
resolves to name `bar`, the build succeeds, and the install succeeds — but
the published file is `bin/custom.so` (the manifest's declared output
filename), not the canonical `bin/bar.so`. -/
theorem install_copy_target_not_renamed_cex :
    (gitInstall envPub ["plugins"] srcBar "bar").1 = Res.ok () ∧
    (gitInstall envPub ["plugins"] srcBar "bar").2.getLast? =
      some (Action.copy ["plugins", "src", "bar.git", "custom.so"]
        ["plugins", "bin", "custom.so"]) ∧
    (["plugins", "bin", "custom.so"] : Path) ≠ ["plugins", "bin", "bar.so"] :=
  ⟨by decide, by decide, by decide⟩

/-- Witness for C1: the publish step evaluated in `envPub`, ending in a copy
to the declared filename `custom.so` under the binaries directory. -/
theorem install_copy_preserves_declared_artifact_filename_witness :
    (publishArtifact envPub ["plugins"] srcBar.sourcePath pmBar).1 = Res.ok () ∧
    (publishArtifact envPub ["plugins"] srcBar.sourcePath pmBar).2.getLast? =
      some (Action.copy (pathJoin srcBar.sourcePath pmBar.binaryOutputPath)
        (getPluginBinariesPath ["plugins"]
          ++ [pathFilename (pathJoin srcBar.sourcePath pmBar.binaryOutputPath)])) :=
  (install_copy_preserves_declared_artifact_filename envPub ["plugins"] srcBar []
    "bar" pmBar).1 rfl

end Hyprload
